import Mathlib

/-!
Shallow embedding of `accountsdb.py` (Limnoria-CommonLibs): the `AccountsDB`
class, which maps IRC user prefixes ("nick!ident@host") to caller-supplied
identifiers under three addressing modes ("accounts", "identhost", "nicks"),
with a pickle-backed store, load-time case normalization, and an
atomic-replace `flush`.

Modelling conventions:
- Python `dict` becomes an insertion-ordered association list
  `List (String × α)`; assignment updates the first matching key in place
  and otherwise appends, matching CPython dict semantics for unique keys.
- `str.lower()` / `str.islower()` are modelled for ASCII strings:
  `Char.toLower` lowercases exactly the chars `A`-`Z`, and `islower` is
  "contains at least one cased (alphabetic) character and no uppercase one",
  which agrees with CPython on ASCII data.
- Exceptions become `Except` values; a `try/except` that swallows the error
  becomes a function that pattern-matches on the `Except` and discards the
  error branch. Error paths NOT covered by a `try/except` — in particular
  the case-normalization loop of `__init__`, which runs in the `else`
  branch outside the `try` and raises `AttributeError` on a deserialized
  value that is not a string-keyed mapping — stay visible as `Except.error`
  results (see `initDb`).
- The filesystem seen by `__init__`/`flush` becomes an explicit value: the
  state of the storage file for `__init__`, and a path-indexed map of file
  contents for `flush`.
-/

/-- Model of Python `str.lower()` on ASCII strings: lowercase every char. -/
def pyLower (s : String) : String := ⟨s.data.map Char.toLower⟩

/-- Model of Python `str.islower()` on ASCII strings: at least one cased
(alphabetic) character, and no uppercase character. In particular a string
with no letters at all (such as "123") is NOT islower, exactly as in Python. -/
def pyIsLower (s : String) : Bool :=
  s.data.any Char.isAlpha && !(s.data.any Char.isUpper)

/-- Python dict lookup `d.get(k)`: first entry with the given key, else none. -/
def dictGet {α : Type} (d : List (String × α)) (k : String) : Option α :=
  match d with
  | [] => none
  | kv :: rest => if kv.1 = k then some kv.2 else dictGet rest k

/-- Python dict assignment `d[k] = v`: update the first entry with key `k`
in place, or append a new entry at the end (insertion order semantics). -/
def dictInsert {α : Type} (k : String) (v : α) : List (String × α) → List (String × α)
  | [] => [(k, v)]
  | kv :: rest => if kv.1 = k then (k, v) :: rest else kv :: dictInsert k v rest

/-- Python dict deletion `del d[k]`: drop the entries with key `k`. -/
def dictErase {α : Type} (k : String) : List (String × α) → List (String × α)
  | [] => []
  | kv :: rest => if kv.1 = k then dictErase k rest else kv :: dictErase k rest

/-- Model of Python `s.split(sep, 1)` at the first "bang" separator, on the
character list: `none` when no separator occurs (in which case the
destructuring `nick, identhost = ...` in the source raises `ValueError`). -/
def splitBang : List Char → Option (List Char × List Char)
  | [] => none
  | c :: cs =>
    if c = '!' then some ([], cs)
    else (splitBang cs).map (fun r => (c :: r.1, r.2))

/-- Split a user prefix string at the first separator into
(nickname, identity-host), per `prefix.split(sep, 1)` in `_get_key`. -/
def splitPfx (p : String) : Option (String × String) :=
  (splitBang p.data).map (fun r => ((⟨r.1⟩ : String), (⟨r.2⟩ : String)))

/-- Outcome of the account-lookup capability `ircdb.users.getUser`:
a user object with a name, a `KeyError` ("no such account"), or any other
exception, which `_get_key` does not catch. -/
inductive LookupResult where
  | found (name : String)
  | notFound
  | failure (msg : String)
deriving DecidableEq, Repr

/-- Errors that can escape `_get_key` (and hence `set`/`get`):
the `ValueError` from unpacking a prefix with no separator (the spec's
`InvalidPrefix`), the explicit `ValueError` for an unknown addressing mode
(the spec's `UnsupportedMode`), and a propagated account-lookup failure. -/
inductive DBError where
  | invalidPrefixError
  | unknownMode (mode : String)
  | lookupFailure (msg : String)
deriving DecidableEq, Repr

/-- Embedding of `AccountsDB._get_key`: split the prefix, then branch on the
addressing mode; in "accounts" mode try the account lookup first, falling
back to the identity-host on `KeyError` and propagating any other failure. -/
def getKey (mode : String) (lookup : String → LookupResult) (p : String) :
    Except DBError String :=
  match splitPfx p with
  | none => .error .invalidPrefixError
  | some (nick, identhost) =>
    if mode = "accounts" then
      match lookup p with
      | .found name => .ok name
      | .notFound => .ok identhost
      | .failure msg => .error (.lookupFailure msg)
    else if mode = "identhost" then .ok identhost
    else if mode = "nicks" then .ok nick
    else .error (.unknownMode mode)

/-- In-memory state of an `AccountsDB` instance. -/
structure AccountsDB (α : Type) where
  db : List (String × α)
  plugin_name : String
  filename : String
  addressing_mode : String
  case_sensitive : Bool
deriving DecidableEq, Repr

/-- Embedding of `AccountsDB.set`: resolve the canonical key, lowercase it
unless case-sensitive, then assign. On a resolution error the exception
propagates and the store is returned unchanged (the assignment never ran). -/
def AccountsDB.set {α : Type} (lookup : String → LookupResult)
    (s : AccountsDB α) (p : String) (newId : α) :
    Except DBError Unit × AccountsDB α :=
  match getKey s.addressing_mode lookup p with
  | .error e => (.error e, s)
  | .ok user =>
    let user := if !s.case_sensitive then pyLower user else user
    (.ok (), { s with db := dictInsert user newId s.db })

/-- Embedding of `AccountsDB.get`: resolve the canonical key, lowercase it
unless case-sensitive, then look it up; a missing entry yields `none`
(Python `dict.get` returning `None`). The store is never modified. -/
def AccountsDB.get {α : Type} (lookup : String → LookupResult)
    (s : AccountsDB α) (p : String) :
    Except DBError (Option α) × AccountsDB α :=
  match getKey s.addressing_mode lookup p with
  | .error e => (.error e, s)
  | .ok user =>
    let user := if !s.case_sensitive then pyLower user else user
    (.ok (dictGet s.db user), s)

/-- State of the storage file as seen by `__init__`: absent, unreadable
(permission error), readable but not a valid pickle, a well-formed pickle
of a string-keyed mapping, or a well-formed pickle of some other value —
a list, a number, or a mapping with (say) integer keys. In the last state
`pickle.load` succeeds, but the loaded value does not support the dict and
string operations the case-normalization loop applies to it. -/
inductive FileState (α : Type) where
  | absent
  | unreadable
  | corrupt
  | good (m : List (String × α))
  | goodForeign
deriving DecidableEq, Repr

/-- Failures of the `open`/`pickle.load` sequence in `__init__`. -/
inductive LoadError where
  | fileAbsent
  | permissionError
  | corruptContents
deriving DecidableEq, Repr

/-- Shape of the value bound to `self.db` once `pickle.load` has succeeded:
a string-keyed mapping, or a foreign deserialized object of any other
shape (the source has no type check, so `self.db` really can end up
holding such a value). -/
inductive DbValue (α : Type) where
  | strDict (m : List (String × α))
  | foreign
deriving DecidableEq, Repr

/-- Embedding of the `try` body of `__init__`: open the file and unpickle
its contents, failing when the file is absent, unreadable or corrupt, and
otherwise returning whatever value the pickle held. -/
def loadFile {α : Type} : FileState α → Except LoadError (DbValue α)
  | .absent => .error .fileAbsent
  | .unreadable => .error .permissionError
  | .corrupt => .error .corruptContents
  | .good m => .ok (.strDict m)
  | .goodForeign => .ok .foreign

/-- One iteration of the case-normalization loop in `__init__`: for an item
`(key, val)` of the copied dict, if `key.islower()` is false, assign
`db[key.lower()] = val` and then delete `db[key]`. -/
def normStep {α : Type} (d : List (String × α)) (kv : String × α) :
    List (String × α) :=
  if pyIsLower kv.1 then d
  else dictErase kv.1 (dictInsert (pyLower kv.1) kv.2 d)

/-- Embedding of the whole normalization pass of `__init__`: iterate
`normStep` over a copy of the loaded dict (`self.db.copy().items()`),
mutating the dict itself. -/
def normalizeDB {α : Type} (d : List (String × α)) : List (String × α) :=
  d.foldl normStep d

/-- Embedding of the effect of `AccountsDB.__init__` on `self.db`,
including its UNcaught error path. The `try/except` wraps only
`open` + `pickle.load`, so any load failure is swallowed (logged at debug
level, `self.db` left as the empty dict). The case-normalization loop,
however, runs in the `else` branch OUTSIDE the `try`: when the loaded
value is a string-keyed mapping it normalizes (case-insensitive store) or
keeps it; when the loaded value is foreign, a case-sensitive store keeps
it as-is and returns normally, while a case-insensitive store raises
`AttributeError` inside the loop (`.items()` on a non-dict, or
`.islower()` on a non-string key), and that exception propagates out of
`__init__` to the caller. -/
def initDb {α : Type} (case_sensitive : Bool) (fileState : FileState α) :
    Except String (DbValue α) :=
  match loadFile fileState with
  | .error _ => .ok (.strDict [])
  | .ok (.strDict m) =>
      .ok (.strDict (if case_sensitive then m else normalizeDB m))
  | .ok .foreign =>
      if case_sensitive then .ok .foreign else .error "AttributeError"

/-- Store-view projection of `initDb`: the `AccountsDB` record constructed
by `__init__` on the outcomes where it returns normally with a string-keyed
mapping. For the two remaining outcomes of `initDb` — a foreign `self.db`
kept by a case-sensitive store, and the propagated `AttributeError` — no
string-keyed store exists and the projection falls back to an empty
mapping; error propagation out of construction is a statement about
`initDb`, not about this projection. -/
def mkAccountsDB {α : Type} (plugin_name filename mode : String)
    (case_sensitive : Bool) (fileState : FileState α) : AccountsDB α :=
  { db :=
      match initDb case_sensitive fileState with
      | .ok (.strDict m) => m
      | .ok .foreign => []
      | .error _ => []
    plugin_name := plugin_name
    filename := filename
    addressing_mode := mode
    case_sensitive := case_sensitive }

/-- Contents of a file in the model filesystem used by `flush`: either a
fully written pickle of a string-keyed mapping, or the debris of a write
that failed partway. -/
inductive FileContent (α : Type) where
  | data (m : List (String × α))
  | partialData
deriving DecidableEq, Repr

/-- The nondeterministic outcome of the `try` body of `flush`:
`writeFails` models `open`/`pickle.dump` raising (serialization fails
before the rename), `moveFails` models `shutil.move` raising after the
temporary file was fully written, and `ok` is the success path. -/
inductive FlushOutcome where
  | ok
  | writeFails
  | moveFails
deriving DecidableEq, Repr

/-- The temporary file path used by `flush`: `self.filename + ".tmp"`. -/
def tmpName {α : Type} (s : AccountsDB α) : String := s.filename ++ ".tmp"

/-- Embedding of the `try` body of `flush` as a transition on the model
filesystem (a path-indexed map of file contents), together with the
exception it raises, if any: dump the mapping to the temporary file, then
move the temporary file over `self.filename`. -/
def flushBody {α : Type} (s : AccountsDB α)
    (fs : List (String × FileContent α)) (ev : FlushOutcome) :
    Except String Unit × List (String × FileContent α) :=
  match ev with
  | .writeFails => (.error "dump failed", dictInsert (tmpName s) .partialData fs)
  | .moveFails => (.error "move failed", dictInsert (tmpName s) (.data s.db) fs)
  | .ok =>
    let fs1 := dictInsert (tmpName s) (.data s.db) fs
    (.ok (), dictErase (tmpName s) (dictInsert s.filename (.data s.db) fs1))

/-- Embedding of `AccountsDB.flush`: run the body and swallow any exception
(`log.exception` then return normally). `flush` is a total function into
the new filesystem state: no error ever reaches the caller. -/
def AccountsDB.flush {α : Type} (s : AccountsDB α)
    (fs : List (String × FileContent α)) (ev : FlushOutcome) :
    List (String × FileContent α) :=
  (flushBody s fs ev).2

/-- A constant account-lookup capability answering `KeyError` ("no such
account") for every prefix; used to instantiate theorems at concrete inputs. -/
def constNotFound : String → LookupResult := fun _ => LookupResult.notFound

theorem uint32_le_iff (a b : UInt32) : a ≤ b ↔ a.toNat ≤ b.toNat := by
  rw [UInt32.le_def, BitVec.le_def]; exact Iff.rfl

theorem char_isUpper_iff (c : Char) : c.isUpper = true ↔ 65 ≤ c.toNat ∧ c.toNat ≤ 90 := by
  unfold Char.isUpper
  rw [Bool.and_eq_true, decide_eq_true_iff, decide_eq_true_iff, ge_iff_le,
      uint32_le_iff, uint32_le_iff]
  exact Iff.rfl

theorem toLower_eq_of_not_upper (c : Char) (h : c.isUpper = false) : c.toLower = c := by
  unfold Char.toLower
  rw [if_neg]
  intro ⟨h1, h2⟩
  rw [← Bool.not_eq_true, char_isUpper_iff] at h
  exact h ⟨h1, h2⟩

theorem char_ofNat_toNat_valid (n : Nat) (h : n.isValidChar) : (Char.ofNat n).toNat = n := by
  unfold Char.ofNat
  rw [dif_pos h]
  rfl

theorem isUpper_toLower (c : Char) : (c.toLower).isUpper = false := by
  by_cases h : c.isUpper = true
  · have hb := (char_isUpper_iff c).mp h
    unfold Char.toLower
    rw [if_pos ⟨hb.1, hb.2⟩]
    rw [← Bool.not_eq_true, char_isUpper_iff]
    have hv : (c.toNat + 32).isValidChar := by left; omega
    rw [char_ofNat_toNat_valid _ hv]
    omega
  · rw [Bool.not_eq_true] at h
    rw [toLower_eq_of_not_upper c h]
    exact h

theorem char_toLower_idem (c : Char) :
    Char.toLower (Char.toLower c) = Char.toLower c :=
  toLower_eq_of_not_upper _ (isUpper_toLower c)

theorem map_toLower_eq_self (l : List Char) (h : ∀ c ∈ l, c.isUpper = false) :
    l.map Char.toLower = l := by
  induction l with
  | nil => rfl
  | cons c cs ih =>
    rw [List.map_cons, toLower_eq_of_not_upper c (h c (List.mem_cons_self c cs)),
        ih (fun x hx => h x (List.mem_cons_of_mem c hx))]

theorem pyLower_eq_self_of_pyIsLower (s : String) (h : pyIsLower s = true) :
    pyLower s = s := by
  unfold pyIsLower at h
  rw [Bool.and_eq_true, Bool.not_eq_true'] at h
  have hnu : ∀ c ∈ s.data, c.isUpper = false := by
    intro c hc
    have hx := (List.any_eq_false.mp h.2) c hc
    exact Bool.not_eq_true _ ▸ (Bool.of_not_eq_true hx)
  show String.mk (s.data.map Char.toLower) = s
  rw [map_toLower_eq_self s.data hnu]

theorem pyLower_idem (s : String) : pyLower (pyLower s) = pyLower s := by
  unfold pyLower
  simp only [List.map_map]
  have : (Char.toLower ∘ Char.toLower) = Char.toLower := by
    funext c; exact char_toLower_idem c
  rw [this]

theorem dictGet_insert_self {α : Type} (k : String) (v : α)
    (d : List (String × α)) : dictGet (dictInsert k v d) k = some v := by
  induction d with
  | nil => simp [dictInsert, dictGet]
  | cons kv rest ih =>
    unfold dictInsert
    by_cases h : kv.1 = k
    · rw [if_pos h]; simp [dictGet]
    · rw [if_neg h]; unfold dictGet; rw [if_neg h]; exact ih

theorem dictGet_insert_ne {α : Type} (k q : String) (v : α)
    (d : List (String × α)) (h : q ≠ k) :
    dictGet (dictInsert k v d) q = dictGet d q := by
  induction d with
  | nil =>
    unfold dictInsert dictGet
    rw [if_neg (fun hx : k = q => h hx.symm)]
    rfl
  | cons kv rest ih =>
    unfold dictInsert
    by_cases hk : kv.1 = k
    · rw [if_pos hk]
      unfold dictGet
      rw [if_neg (fun hx => h hx.symm), if_neg (by rw [hk]; exact fun hx => h hx.symm)]
    · rw [if_neg hk]
      unfold dictGet
      by_cases hq : kv.1 = q
      · rw [if_pos hq, if_pos hq]
      · rw [if_neg hq, if_neg hq]; exact ih

theorem dictGet_eq_none_of_not_mem {α : Type} (k : String)
    (d : List (String × α)) (h : k ∉ d.map Prod.fst) : dictGet d k = none := by
  induction d with
  | nil => rfl
  | cons kv rest ih =>
    unfold dictGet
    rw [List.map_cons, List.mem_cons] at h
    push_neg at h
    rw [if_neg (fun hx => h.1 hx.symm)]
    exact ih h.2

theorem mem_keys_of_mem_insert {α : Type} (k q : String) (v : α)
    (d : List (String × α)) (h : q ∈ (dictInsert k v d).map Prod.fst) :
    q = k ∨ q ∈ d.map Prod.fst := by
  induction d with
  | nil => simp [dictInsert] at h; exact Or.inl h
  | cons kv rest ih =>
    unfold dictInsert at h
    by_cases hk : kv.1 = k
    · rw [if_pos hk] at h
      rw [List.map_cons, List.mem_cons] at h
      rcases h with h | h
      · exact Or.inl h
      · exact Or.inr (by rw [List.map_cons, List.mem_cons]; exact Or.inr h)
    · rw [if_neg hk] at h
      rw [List.map_cons, List.mem_cons] at h
      rcases h with h | h
      · exact Or.inr (by rw [List.map_cons, List.mem_cons]; exact Or.inl h)
      · rcases ih h with h2 | h2
        · exact Or.inl h2
        · exact Or.inr (by rw [List.map_cons, List.mem_cons]; exact Or.inr h2)

theorem mem_keys_of_mem_erase {α : Type} (k q : String)
    (d : List (String × α)) (h : q ∈ (dictErase k d).map Prod.fst) :
    q ∈ d.map Prod.fst ∧ q ≠ k := by
  induction d with
  | nil => cases h
  | cons kv rest ih =>
    unfold dictErase at h
    by_cases hk : kv.1 = k
    · rw [if_pos hk] at h
      have := ih h
      exact ⟨by rw [List.map_cons, List.mem_cons]; exact Or.inr this.1, this.2⟩
    · rw [if_neg hk] at h
      rw [List.map_cons, List.mem_cons] at h
      rcases h with h | h
      · exact ⟨by rw [List.map_cons, List.mem_cons]; exact Or.inl h,
               by rw [h]; exact hk⟩
      · have := ih h
        exact ⟨by rw [List.map_cons, List.mem_cons]; exact Or.inr this.1, this.2⟩

theorem keys_foldl_normStep {α : Type} (l : List (String × α)) :
    ∀ (d0 : List (String × α)),
      (∀ k ∈ d0.map Prod.fst, pyLower k = k ∨ k ∈ l.map Prod.fst) →
      ∀ k ∈ (l.foldl normStep d0).map Prod.fst, pyLower k = k := by
  induction l with
  | nil =>
    intro d0 h k hk
    rcases h k hk with h2 | h2
    · exact h2
    · cases h2
  | cons kv rest ih =>
    intro d0 h k hk
    rw [List.foldl_cons] at hk
    refine ih (normStep d0 kv) ?_ k hk
    intro q hq
    unfold normStep at hq
    by_cases hl : pyIsLower kv.1
    · rw [if_pos hl] at hq
      rcases h q hq with h2 | h2
      · exact Or.inl h2
      · rw [List.map_cons, List.mem_cons] at h2
        rcases h2 with h2 | h2
        · exact Or.inl (h2 ▸ pyLower_eq_self_of_pyIsLower kv.1 hl)
        · exact Or.inr h2
    · rw [if_neg hl] at hq
      obtain ⟨hq1, hq2⟩ := mem_keys_of_mem_erase kv.1 q _ hq
      rcases mem_keys_of_mem_insert (pyLower kv.1) q kv.2 d0 hq1 with h2 | h2
      · exact Or.inl (h2 ▸ pyLower_idem kv.1)
      · rcases h q h2 with h3 | h3
        · exact Or.inl h3
        · rw [List.map_cons, List.mem_cons] at h3
          rcases h3 with h3 | h3
          · exact absurd h3 hq2
          · exact Or.inr h3

theorem normalizeDB_keys_lower {α : Type} (m : List (String × α)) :
    ∀ k ∈ (normalizeDB m).map Prod.fst, pyLower k = k := by
  unfold normalizeDB
  exact keys_foldl_normStep m m (fun k hk => Or.inr hk)

theorem splitBang_eq_none (l : List Char) (h : '!' ∉ l) : splitBang l = none := by
  induction l with
  | nil => rfl
  | cons c cs ih =>
    unfold splitBang
    rw [if_neg (fun hx : c = '!' => h (List.mem_cons.mpr (Or.inl hx.symm))),
        ih (fun hx => h (List.mem_cons_of_mem c hx))]
    rfl

theorem getKey_nicks (lookup : String → LookupResult) (p n ih : String)
    (h : splitPfx p = some (n, ih)) : getKey "nicks" lookup p = .ok n := by
  unfold getKey
  rw [h]
  rfl

theorem getKey_identhost (lookup : String → LookupResult) (p n ih : String)
    (h : splitPfx p = some (n, ih)) : getKey "identhost" lookup p = .ok ih := by
  unfold getKey
  rw [h]
  rfl

theorem getKey_accounts (lookup : String → LookupResult) (p n ih : String)
    (h : splitPfx p = some (n, ih)) :
    getKey "accounts" lookup p =
      (match lookup p with
       | .found name => .ok name
       | .notFound => .ok ih
       | .failure msg => .error (.lookupFailure msg)) := by
  unfold getKey
  rw [h]
  rfl

theorem tmpName_ne_filename {α : Type} (s : AccountsDB α) :
    s.filename ≠ tmpName s := by
  unfold tmpName
  intro h
  have hlen := congrArg String.length h
  rw [String.length_append] at hlen
  have : (".tmp" : String).length = 4 := rfl
  omega

/-- The projection `mkAccountsDB` agrees with the faithful `initDb`
whenever `__init__` returns normally with a string-keyed mapping. -/
theorem mkAccountsDB_db_of_initDb {α : Type} (pn fn mode : String)
    (cs : Bool) (fileState : FileState α) (m : List (String × α))
    (h : initDb cs fileState = .ok (.strDict m)) :
    (mkAccountsDB pn fn mode cs fileState).db = m := by
  unfold mkAccountsDB
  rw [h]

/-- C1: the claim says construction never propagates an error to the
caller, for every storage file state including arbitrary well-formed
contents. The code refutes it: failures of `open`/`pickle.load` are indeed
swallowed — an absent, unreadable or corrupt file yields a normal return
with an empty mapping, for either value of `case_sensitive` — but the
case-normalization loop runs in the `else` branch outside the
`try/except`, so a well-formed pickle of a value that is not a
string-keyed mapping (a list, a number, an integer-keyed dict) makes
`__init__` raise an uncaught `AttributeError` when `case_sensitive` is
false. This theorem evaluates the embedding on both sides: the three
swallowed load-failure states, the failing input where construction
propagates the error, and the case-sensitive path that silently keeps the
foreign value. -/
theorem C1_construction_raises_on_foreign_pickle :
    (∀ (α : Type) (cs : Bool),
      initDb cs (FileState.absent : FileState α) = .ok (.strDict []) ∧
      initDb cs (FileState.unreadable : FileState α) = .ok (.strDict []) ∧
      initDb cs (FileState.corrupt : FileState α) = .ok (.strDict [])) ∧
    initDb false (FileState.goodForeign : FileState Nat)
      = .error "AttributeError" ∧
    initDb true (FileState.goodForeign : FileState Nat) = .ok .foreign :=
  ⟨fun _ _ => ⟨rfl, rfl, rfl⟩, rfl, rfl⟩

/-- C2: round-trip. For every store, valid prefix `p` and value `v`, under
the store's fixed addressing mode and the fixed (hence deterministic)
account-lookup function, if `set p v` succeeds and produces store `s2`,
then `get p` on `s2` returns `v` (and `s2` is unchanged by the `get`). -/
theorem C2_set_get_roundtrip {α : Type} (lookup : String → LookupResult)
    (s s2 : AccountsDB α) (p : String) (v : α)
    (h : AccountsDB.set lookup s p v = (.ok (), s2)) :
    AccountsDB.get lookup s2 p = (.ok (some v), s2) := by
  unfold AccountsDB.set at h
  cases hk : getKey s.addressing_mode lookup p with
  | error e =>
    rw [hk] at h
    exact absurd (congrArg Prod.fst h) (by simp)
  | ok user =>
    rw [hk] at h
    have hs2 : s2 = { s with
        db := dictInsert (if !s.case_sensitive then pyLower user else user) v s.db } :=
      (congrArg Prod.snd h).symm
    subst hs2
    unfold AccountsDB.get
    rw [show ({ s with
        db := dictInsert (if !s.case_sensitive then pyLower user else user) v s.db }
          : AccountsDB α).addressing_mode = s.addressing_mode from rfl]
    rw [hk]
    show (Except.ok (dictGet
        (dictInsert (if !s.case_sensitive then pyLower user else user) v s.db)
        (if !s.case_sensitive then pyLower user else user)), _) = _
    rw [dictGet_insert_self]

/-- Witness for C2 at a concrete input: on an empty case-insensitive
"nicks" store, `set "a!b" 7` succeeds and the subsequent `get "a!b"`
returns `7`. -/
theorem C2_set_get_roundtrip_witness :
    AccountsDB.set constNotFound
      (⟨[], "p", "f", "nicks", false⟩ : AccountsDB Nat) "a!b" 7
      = (.ok (), (⟨[("a", 7)], "p", "f", "nicks", false⟩ : AccountsDB Nat)) ∧
    AccountsDB.get constNotFound
      (⟨[("a", 7)], "p", "f", "nicks", false⟩ : AccountsDB Nat) "a!b"
      = (.ok (some 7), ⟨[("a", 7)], "p", "f", "nicks", false⟩) :=
  ⟨rfl, C2_set_get_roundtrip constNotFound
    (⟨[], "p", "f", "nicks", false⟩ : AccountsDB Nat)
    (⟨[("a", 7)], "p", "f", "nicks", false⟩ : AccountsDB Nat) "a!b" 7 rfl⟩

/-- C3: case-insensitive load normalization invariant. After constructing a
case-insensitive store from any loaded string-keyed mapping, no two keys of
the in-memory mapping differ only by case (lower-equal keys are equal); and
concretely, a file containing both "Bob" and "bob" collapses, after load,
to the single entry under "bob". -/
theorem C3_case_normalization_invariant :
    (∀ (α : Type) (pn fn mode : String) (m : List (String × α)) (k1 k2 : String),
      k1 ∈ (mkAccountsDB pn fn mode false (FileState.good m)).db.map Prod.fst →
      k2 ∈ (mkAccountsDB pn fn mode false (FileState.good m)).db.map Prod.fst →
      pyLower k1 = pyLower k2 → k1 = k2) ∧
    (mkAccountsDB "p" "f" "nicks" false
      (FileState.good [("Bob", 1), ("bob", 2)]) : AccountsDB Nat).db = [("bob", 1)] := by
  constructor
  · intro α pn fn mode m k1 k2 h1 h2 hl
    have e1 : (mkAccountsDB pn fn mode false (FileState.good m)).db = normalizeDB m := rfl
    rw [e1] at h1 h2
    have g1 := normalizeDB_keys_lower m k1 h1
    have g2 := normalizeDB_keys_lower m k2 h2
    rw [← g1, ← g2, hl]
  · decide

/-- Witness for C3 at a concrete input: in the store loaded from
`[("Bob", 1), ("bob", 2)]`, the key "bob" is present, and the invariant
instantiates at it. -/
theorem C3_case_normalization_invariant_witness :
    ("bob" : String) ∈ (mkAccountsDB "p" "f" "nicks" false
      (FileState.good [("Bob", 1), ("bob", 2)]) : AccountsDB Nat).db.map Prod.fst ∧
    ("bob" : String) = "bob" :=
  ⟨by decide, C3_case_normalization_invariant.1 Nat "p" "f" "nicks"
    [("Bob", 1), ("bob", 2)] "bob" "bob" (by decide) (by decide) rfl⟩

/-- C4: the claim asserts that load normalization preserves every entry
under its lowercased key, in particular an entry whose key has no cased
characters (such as "123"). The code violates this: because Python's
`"123".islower()` is false, the normalization loop re-assigns
`db["123"] = val` (a no-op) and then deletes `db["123"]`, losing the entry.
This theorem evaluates the embedded code at the failing input: a
case-insensitive store loaded from the mapping `{"123": 5}` comes up with
an empty mapping. -/
theorem C4_load_drops_uncased_key :
    (mkAccountsDB "p" "f" "accounts" false
      (FileState.good [("123", 5)]) : AccountsDB Nat).db = [] := by decide

/-- C5: a prefix without the separator fails `get` and `set` with the
invalid-prefix error (the `ValueError` raised by unpacking
`prefix.split` in `_get_key`), and the mapping — indeed the whole store —
is exactly the same after the failed call as before it. -/
theorem C5_invalid_prefix_rejected {α : Type} (lookup : String → LookupResult)
    (s : AccountsDB α) (p : String) (v : α) (h : '!' ∉ p.data) :
    AccountsDB.set lookup s p v = (.error .invalidPrefixError, s) ∧
    AccountsDB.get lookup s p = (.error .invalidPrefixError, s) := by
  have hs : splitPfx p = none := by
    unfold splitPfx
    rw [splitBang_eq_none p.data h]
    rfl
  have hk : getKey s.addressing_mode lookup p = .error .invalidPrefixError := by
    unfold getKey
    rw [hs]
  unfold AccountsDB.set AccountsDB.get
  rw [hk]
  exact ⟨rfl, rfl⟩

/-- Witness for C5 at a concrete input: the separator-free prefix "abc"
fails both `set` and `get` with the invalid-prefix error and leaves the
store untouched. -/
theorem C5_invalid_prefix_rejected_witness :
    ('!' ∉ ("abc" : String).data) ∧
    AccountsDB.set constNotFound
      (⟨[], "p", "f", "accounts", false⟩ : AccountsDB Nat) "abc" 3
      = (.error .invalidPrefixError, ⟨[], "p", "f", "accounts", false⟩) ∧
    AccountsDB.get constNotFound
      (⟨[], "p", "f", "accounts", false⟩ : AccountsDB Nat) "abc"
      = (.error .invalidPrefixError, ⟨[], "p", "f", "accounts", false⟩) :=
  ⟨by decide,
   (C5_invalid_prefix_rejected constNotFound
     (⟨[], "p", "f", "accounts", false⟩ : AccountsDB Nat) "abc" 3 (by decide)).1,
   (C5_invalid_prefix_rejected constNotFound
     (⟨[], "p", "f", "accounts", false⟩ : AccountsDB Nat) "abc" 3 (by decide)).2⟩

/-- C6: mode "accounts" resolution. For every valid prefix: a successful
account lookup resolves to the account name; a "not found" lookup falls
back to the identity-host component (not an error); and any other lookup
failure propagates unchanged to the caller. -/
theorem C6_accounts_mode_fallback (lookup : String → LookupResult)
    (p n ih : String) (h : splitPfx p = some (n, ih)) :
    (∀ a, lookup p = .found a → getKey "accounts" lookup p = .ok a) ∧
    (lookup p = .notFound → getKey "accounts" lookup p = .ok ih) ∧
    (∀ msg, lookup p = .failure msg →
      getKey "accounts" lookup p = .error (.lookupFailure msg)) := by
  refine ⟨?_, ?_, ?_⟩
  · intro a hl
    rw [getKey_accounts lookup p n ih h, hl]
  · intro hl
    rw [getKey_accounts lookup p n ih h, hl]
  · intro msg hl
    rw [getKey_accounts lookup p n ih h, hl]

/-- Witness for C6 at a concrete input: with a lookup answering "not
found", resolving "n!u@h" in "accounts" mode returns the identity-host
"u@h". -/
theorem C6_accounts_mode_fallback_witness :
    splitPfx "n!u@h" = some ("n", "u@h") ∧
    getKey "accounts" constNotFound "n!u@h" = .ok "u@h" :=
  ⟨rfl, (C6_accounts_mode_fallback constNotFound "n!u@h" "n" "u@h" rfl).2.1 rfl⟩

/-- C7: `flush` never raises to the caller — it is the total function that
runs the write-then-rename body and swallows its error, for every outcome
of serialization and file replacement; and when serialization fails before
the rename, the file at `storage_path` (or its absence) is left exactly as
it was. -/
theorem C7_flush_never_raises {α : Type} (s : AccountsDB α)
    (fs : List (String × FileContent α)) (ev : FlushOutcome) :
    AccountsDB.flush s fs ev = (flushBody s fs ev).2 ∧
    (ev = FlushOutcome.writeFails →
      dictGet (AccountsDB.flush s fs ev) s.filename = dictGet fs s.filename) := by
  refine ⟨rfl, ?_⟩
  intro hev
  subst hev
  show dictGet (dictInsert (tmpName s) FileContent.partialData fs) s.filename
      = dictGet fs s.filename
  exact dictGet_insert_ne (tmpName s) s.filename _ fs (tmpName_ne_filename s)

/-- Witness for C7 at a concrete input: a failed serialization leaves the
storage file "f" with its previous contents. -/
theorem C7_flush_never_raises_witness :
    dictGet (AccountsDB.flush
        (⟨[("k", 3)], "p", "f", "nicks", false⟩ : AccountsDB Nat)
        [("f", FileContent.data [("old", 9)])] FlushOutcome.writeFails) "f"
      = dictGet [("f", FileContent.data [("old", 9)])] "f" :=
  (C7_flush_never_raises
    (⟨[("k", 3)], "p", "f", "nicks", false⟩ : AccountsDB Nat)
    [("f", FileContent.data [("old", 9)])] FlushOutcome.writeFails).2 rfl

/-- C8: case-insensitive lookup equivalence. On a case-insensitive
"nicks"-mode store, after `set` with either of the prefixes
"Nick!user@host" or "nick!user@host", `get` of each of the two prefixes
returns the same value — the one just set. -/
theorem C8_case_insensitive_lookup_equiv {α : Type}
    (lookup lookup1 lookup2 : String → LookupResult)
    (d : List (String × α)) (pn fn : String) (v : α) :
    ((AccountsDB.get lookup1
        (AccountsDB.set lookup (⟨d, pn, fn, "nicks", false⟩ : AccountsDB α)
          "Nick!user@host" v).2 "Nick!user@host").1 = .ok (some v)) ∧
    ((AccountsDB.get lookup2
        (AccountsDB.set lookup (⟨d, pn, fn, "nicks", false⟩ : AccountsDB α)
          "Nick!user@host" v).2 "nick!user@host").1 = .ok (some v)) ∧
    ((AccountsDB.get lookup1
        (AccountsDB.set lookup (⟨d, pn, fn, "nicks", false⟩ : AccountsDB α)
          "nick!user@host" v).2 "Nick!user@host").1 = .ok (some v)) ∧
    ((AccountsDB.get lookup2
        (AccountsDB.set lookup (⟨d, pn, fn, "nicks", false⟩ : AccountsDB α)
          "nick!user@host" v).2 "nick!user@host").1 = .ok (some v)) := by
  refine ⟨?_, ?_, ?_, ?_⟩ <;>
    · show Except.ok (dictGet (dictInsert "nick" v d) "nick") = Except.ok (some v)
      rw [dictGet_insert_self]

/-- C9: for every valid prefix, "identhost" mode returns the identity-host
component and its result does not depend on the account-lookup capability
(the capability is never consulted), and "nicks" mode returns the nickname
component before the first separator. -/
theorem C9_identhost_and_nicks_modes (lookup1 lookup2 : String → LookupResult)
    (p n ih : String) (h : splitPfx p = some (n, ih)) :
    getKey "identhost" lookup1 p = .ok ih ∧
    getKey "identhost" lookup1 p = getKey "identhost" lookup2 p ∧
    getKey "nicks" lookup1 p = .ok n := by
  refine ⟨getKey_identhost lookup1 p n ih h, ?_, getKey_nicks lookup1 p n ih h⟩
  rw [getKey_identhost lookup1 p n ih h, getKey_identhost lookup2 p n ih h]

/-- Witness for C9 at a concrete input: "identhost" mode resolves "n!u@h"
to "u@h" whatever the lookup capability does. -/
theorem C9_identhost_and_nicks_modes_witness :
    getKey "identhost" constNotFound "n!u@h" = .ok "u@h" :=
  (C9_identhost_and_nicks_modes constNotFound constNotFound
    "n!u@h" "n" "u@h" rfl).1

/-- C10: `get` on a canonical key absent from the mapping returns the
explicit "absent" signal (`none`, Python's `dict.get` returning `None`) —
neither an error nor a default value — and leaves the store unchanged. -/
theorem C10_missing_key_returns_absent {α : Type}
    (lookup : String → LookupResult) (s : AccountsDB α) (p user : String)
    (hk : getKey s.addressing_mode lookup p = .ok user)
    (hm : (if !s.case_sensitive then pyLower user else user) ∉ s.db.map Prod.fst) :
    AccountsDB.get lookup s p = (.ok none, s) := by
  unfold AccountsDB.get
  rw [hk]
  show (Except.ok (dictGet s.db (if !s.case_sensitive then pyLower user else user)), s)
      = (Except.ok none, s)
  rw [dictGet_eq_none_of_not_mem _ _ hm]

/-- Witness for C10 at a concrete input: `get "a!b"` on an empty
case-insensitive "nicks" store returns `none` and leaves the store as it
was. -/
theorem C10_missing_key_returns_absent_witness :
    AccountsDB.get constNotFound
      (⟨[], "p", "f", "nicks", false⟩ : AccountsDB Nat) "a!b"
      = (.ok none, ⟨[], "p", "f", "nicks", false⟩) :=
  C10_missing_key_returns_absent constNotFound
    (⟨[], "p", "f", "nicks", false⟩ : AccountsDB Nat) "a!b" "a" rfl (by decide)
